import Mathlib

/-!
Verification of the File-Manager utility (C sources: fileManager.c,
fileops.c, dirops.c, logging.c, utils.c) against its natural-language
specification, through a shallow embedding in Lean 4.

Modelling conventions
- File and log contents are `List Char`; path and entry names are `String`.
- The filesystem is an association list from names to entries; a directory
  entry carries the list its `readdir` enumeration yields (possibly
  including the `"."` and `".."` self/parent references) with each child's
  `stat` kind.
- `get_timestamp` reads the wall clock, so every operation takes the
  timestamp string `ts` as an explicit parameter.
- I/O syscalls (`open`, `read`, `write`, `flock`, `close`) are modelled as
  succeeding except where their failure is decided by the modelled state
  (`open(_, O_EXCL)` on an existing path, `open(LOG_FILE, O_WRONLY|O_APPEND)`
  on a missing log, `mkdir`/`rmdir` on an existing/missing path); the
  operations run sequentially, so lock acquisition always succeeds.
- Writes to stdout/stderr are omitted except where a claim is about them
  (the bytes `read_file` and `show_logs` print, the names
  `list_files_by_extension` lists).
- `parse_command` stores bytes into fixed buffers (`char *args[MAX_ARGS]`,
  each of `MAX_ARG_SIZE` bytes). The embedding is bounds-checked: it
  returns `none` exactly when the C code would index a buffer or the
  argument array out of range (C undefined behavior), and `some tokens`
  when the parse completes inside the bounds.

The repository holds two variants of `append_to_file`: the one in
fileops.c (blocking lock, unconditional separator) and the one in the
unnamed fileops variant (child process, non-blocking lock, conditional
separator). Both are embedded, as `append_to_file` and
`append_to_file_child`.
-/

namespace FileManager

/-- Kind a child entry's `stat` reports: `S_ISREG` or `S_ISDIR`. -/
inductive DKind where
  | regular : DKind
  | directory : DKind
deriving DecidableEq, Repr

/-- A filesystem entry: a regular file with its byte content, or a
directory with the entry list its `readdir` enumeration yields. -/
inductive FSEntry where
  | file : List Char → FSEntry
  | dir : List (String × DKind) → FSEntry
deriving DecidableEq, Repr

/-- The filesystem: an association list from path names to entries. -/
abbrev FS := List (String × FSEntry)

/-- `stat` on a path: the entry stored under the name, if any. -/
def statF : FS → String → Option FSEntry
  | [], _ => none
  | (n, e) :: rest, name => if n = name then some e else statF rest name

/-- utils.c `file_exists`: `stat(filename, &st) == 0 && S_ISREG(st.st_mode)`. -/
def file_exists (fs : FS) (filename : String) : Bool :=
  match statF fs filename with
  | some (FSEntry.file _) => true
  | _ => false

/-- utils.c `directory_exists`: `stat(dirname, &st) == 0 && S_ISDIR(st.st_mode)`. -/
def directory_exists (fs : FS) (dirname : String) : Bool :=
  match statF fs dirname with
  | some (FSEntry.dir _) => true
  | _ => false

/-- Replace the content of the regular file stored under `name`. -/
def fsUpdate (fs : FS) (name : String) (content : List Char) : FS :=
  fs.map (fun e => if e.1 = name then (e.1, FSEntry.file content) else e)

/-- Remove the entry stored under `name` (`unlink` / `rmdir`). -/
def fsErase (fs : FS) (name : String) : FS :=
  fs.filter (fun e => ¬ e.1 = name)

/-- utils.c `string_format` on a format string whose specifiers are all
`%s`: the loop copies the expanded text left to right while
`buffer_pos < size - 1`, so the result is the expansion truncated to
`size - 1` characters (then NUL-terminated). -/
def string_format (size : Nat) (expansion : List Char) : List Char :=
  expansion.take (size - 1)

/-- logging.c `init_logging`: `open(LOG_FILE, O_WRONLY|O_CREAT|O_APPEND)`
creates the log empty when absent and never truncates an existing one. -/
def init_logging (log : Option (List Char)) : Option (List Char) :=
  match log with
  | none => some []
  | some l => some l

/-- logging.c `log_operation`: open the log for append (fails when the log
file does not exist — the callers ignore that failure), take the exclusive
lock, format `"%s %s\n"` (timestamp, message) into a 512-byte buffer with
`string_format`, and append it with one `write`. -/
def log_operation (ts msg : List Char) (log : Option (List Char)) :
    Option (List Char) :=
  match log with
  | none => none
  | some l => some (l ++ string_format 512 (ts ++ ' ' :: (msg ++ ['\n'])))

/-- logging.c `show_logs`: the `(result, log file, stdout bytes)` of the
dump. Missing log: "No logs available."; empty log: "Log file is empty.";
otherwise the header, the whole content, and a trailing newline exactly
when `bytes_read > 0 && buffer[bytes_read - 1] != '\n'`. The log is only
read (shared lock), never written. -/
def show_logs (log : Option (List Char)) :
    Int × Option (List Char) × List Char :=
  match log with
  | none => (0, none, ("No logs available.\n").data)
  | some content =>
    if content.length = 0 then
      (0, some content, ("Log file is empty.\n").data)
    else
      (0, some content,
        ("Operation Logs:\n").data ++ content ++
          (if 0 < content.length ∧ content.getLast? ≠ some '\n' then ['\n']
           else []))

/-- Log message of fileops.c `create_file`. -/
def create_file_msg (filename : String) : List Char :=
  ("File \"" ++ filename ++ "\" created successfully.").data

/-- Log message of fileops.c `read_file`. -/
def read_file_msg (filename : String) : List Char :=
  ("File \"" ++ filename ++ "\" read successfully.").data

/-- Log message of fileops.c `append_to_file`. -/
def append_msg (filename : String) : List Char :=
  ("Content appended to file \"" ++ filename ++ "\" successfully.").data

/-- Log message of the unnamed-variant `append_to_file` (child process). -/
def append_child_msg (filename : String) : List Char :=
  ("Content appended to file \"" ++ filename ++ "\".").data

/-- Log message of fileops.c `delete_file`. -/
def delete_file_msg (filename : String) : List Char :=
  ("File \"" ++ filename ++ "\" deleted successfully.").data

/-- Log message of dirops.c `create_directory`. -/
def create_dir_msg (dirname : String) : List Char :=
  ("Directory \"" ++ dirname ++ "\" created successfully.").data

/-- Log message of dirops.c `list_directory`. -/
def list_dir_msg (dirname : String) : List Char :=
  ("Listed contents of directory \"" ++ dirname ++ "\".").data

/-- Log message of dirops.c `list_files_by_extension`. -/
def list_ext_msg (ext dirname : String) : List Char :=
  ("Listed files with extension \"" ++ ext ++ "\" in directory \"" ++
    dirname ++ "\".").data

/-- Log message of dirops.c `delete_directory`. -/
def delete_dir_msg (dirname : String) : List Char :=
  ("Directory \"" ++ dirname ++ "\" deleted successfully.").data

/-- fileops.c `create_file`: refuse when `file_exists`; then
`open(filename, O_WRONLY|O_CREAT|O_EXCL, 0644)` — which fails when the
path exists in any form (e.g. as a directory) — write the timestamp as the
new file's content, log, report. Returns `(result, fs, log)`. -/
def create_file (ts : List Char) (fs : FS) (log : Option (List Char))
    (filename : String) : Int × FS × Option (List Char) :=
  if file_exists fs filename then (-1, fs, log)
  else if (statF fs filename).isSome then (-1, fs, log)
  else
    ((0 : Int), (filename, FSEntry.file ts) :: fs,
      log_operation ts (string_format 256 (create_file_msg filename)) log)

/-- fileops.c `read_file`: refuse when `!file_exists`; otherwise open,
`fstat` the size, read the whole content, log, print a header and the
content (the trailing-newline fixup touches stdout only, not the bytes of
the file). Returns `(result, fs, log, bytes read)`. -/
def read_file (ts : List Char) (fs : FS) (log : Option (List Char))
    (filename : String) : Int × FS × Option (List Char) × List Char :=
  match statF fs filename with
  | some (FSEntry.file content) =>
    ((0 : Int), fs,
      log_operation ts (string_format 256 (read_file_msg filename)) log,
      content)
  | _ => (-1, fs, log, [])

/-- Effect of fileops.c `append_to_file` on the file's bytes:
`write(fd, "\n", 1)` then `write(fd, content, strlen(content))` — the
separating newline is written unconditionally. -/
def append_effect (old content : List Char) : List Char :=
  old ++ '\n' :: content

/-- Effect of the unnamed-variant `append_to_file` on the file's bytes:
when `st.st_size > 0`, the child reads the last byte and writes one
newline only when that byte is not a newline; then the content. -/
def append_child_effect (old content : List Char) : List Char :=
  (if 0 < old.length ∧ old.getLast? ≠ some '\n' then old ++ ['\n'] else old)
    ++ content

/-- fileops.c `append_to_file`: refuse when `!file_exists`; otherwise open
in append mode, take the blocking exclusive `flock`, write the separator
and the content, unlock, close, log, report. -/
def append_to_file (ts : List Char) (fs : FS) (log : Option (List Char))
    (filename content : String) : Int × FS × Option (List Char) :=
  match statF fs filename with
  | some (FSEntry.file old) =>
    ((0 : Int), fsUpdate fs filename (append_effect old content.data),
      log_operation ts (string_format 256 (append_msg filename)) log)
  | _ => (-1, fs, log)

/-- Unnamed-variant `append_to_file`: refuse when `!file_exists`; a child
process opens the file, takes a non-blocking exclusive `flock`, appends
the conditional separator and the content, logs, reports; the parent maps
the child's exit status to the result. -/
def append_to_file_child (ts : List Char) (fs : FS) (log : Option (List Char))
    (filename content : String) : Int × FS × Option (List Char) :=
  match statF fs filename with
  | some (FSEntry.file old) =>
    ((0 : Int), fsUpdate fs filename (append_child_effect old content.data),
      log_operation ts (string_format 256 (append_child_msg filename)) log)
  | _ => (-1, fs, log)

/-- fileops.c `delete_file`: refuse when `!file_exists`; otherwise a child
process `unlink`s the file, and on its success the parent logs and
reports. -/
def delete_file (ts : List Char) (fs : FS) (log : Option (List Char))
    (filename : String) : Int × FS × Option (List Char) :=
  match statF fs filename with
  | some (FSEntry.file _) =>
    ((0 : Int), fsErase fs filename,
      log_operation ts (string_format 256 (delete_file_msg filename)) log)
  | _ => (-1, fs, log)

/-- dirops.c `create_directory`: refuse when `directory_exists`; then
`mkdir(dirname, 0755)` — which fails when the path exists in any form —
log and report. A fresh directory's enumeration holds only the self and
parent references. -/
def create_directory (ts : List Char) (fs : FS) (log : Option (List Char))
    (dirname : String) : Int × FS × Option (List Char) :=
  if directory_exists fs dirname then (-1, fs, log)
  else if (statF fs dirname).isSome then (-1, fs, log)
  else
    ((0 : Int),
      (dirname, FSEntry.dir [(".", DKind.directory), ("..", DKind.directory)])
        :: fs,
      log_operation ts (string_format 256 (create_dir_msg dirname)) log)

/-- dirops.c `list_directory`: refuse when `!directory_exists`; otherwise a
child process enumerates the directory to stdout and the parent logs on
its success (the printed listing is not modelled). -/
def list_directory (ts : List Char) (fs : FS) (log : Option (List Char))
    (dirname : String) : Int × FS × Option (List Char) :=
  match statF fs dirname with
  | some (FSEntry.dir _) =>
    ((0 : Int), fs,
      log_operation ts (string_format 256 (list_dir_msg dirname)) log)
  | _ => (-1, fs, log)

/-- The per-entry test of dirops.c `list_files_by_extension`:
`name_len > ext_len && strcmp(d_name + name_len - ext_len, extension) == 0`. -/
def ext_matches (name ext : String) : Bool :=
  decide (ext.length < name.length) &&
    decide (name.data.drop (name.length - ext.length) = ext.data)

/-- The full per-entry filter of `list_files_by_extension`: skip `"."` and
`".."`, require the extension test, `stat` the child and require
`S_ISREG`. -/
def lfbe_keep (ext : String) (e : String × DKind) : Bool :=
  !(e.1 == ".") && !(e.1 == "..") && ext_matches e.1 ext &&
    decide (e.2 = DKind.regular)

/-- The names `list_files_by_extension` prints, in enumeration order. -/
def listed_by_extension (entries : List (String × DKind)) (ext : String) :
    List String :=
  (entries.filter (lfbe_keep ext)).map Prod.fst

/-- dirops.c `list_files_by_extension`: refuse when `!directory_exists`;
otherwise a child process prints the filtered names and the parent logs on
its success. Returns `(result, fs, log, names printed)`. -/
def list_files_by_extension (ts : List Char) (fs : FS)
    (log : Option (List Char)) (dirname ext : String) :
    Int × FS × Option (List Char) × List String :=
  match statF fs dirname with
  | some (FSEntry.dir entries) =>
    ((0 : Int), fs,
      log_operation ts (string_format 256 (list_ext_msg ext dirname)) log,
      listed_by_extension entries ext)
  | _ => (-1, fs, log, [])

/-- dirops.c `delete_directory`: refuse when `!directory_exists`; a child
process re-reads the directory and treats it as empty exactly when every
enumerated entry is `"."` or `".."`; a non-empty directory is a reported
failure, an empty one is `rmdir`ed; the parent logs and reports on the
child's success. -/
def delete_directory (ts : List Char) (fs : FS) (log : Option (List Char))
    (dirname : String) : Int × FS × Option (List Char) :=
  match statF fs dirname with
  | some (FSEntry.dir entries) =>
    if entries.all (fun e => e.1 == "." || e.1 == "..") then
      ((0 : Int), fsErase fs dirname,
        log_operation ts (string_format 256 (delete_dir_msg dirname)) log)
    else (-1, fs, log)
  | _ => (-1, fs, log)

/-- The program state an invocation acts on: the filesystem and the log
file (`none` while log.txt does not exist). -/
structure World where
  fs : FS
  log : Option (List Char)
deriving DecidableEq, Repr

/-- fileManager.c `execute_command`: dispatch on `args[0]` over the fixed
command set, checking each command's arity exactly; `0` success, `1`
exit/quit, `-1` failure. -/
def execute_command (ts : List Char) (w : World) (args : List String) :
    Int × World :=
  match args with
  | [] => (0, w)
  | cmd :: rest =>
    if cmd = "createDir" then
      match rest with
      | [d] =>
        let r := create_directory ts w.fs w.log d
        (r.1, ⟨r.2.1, r.2.2⟩)
      | _ => (-1, w)
    else if cmd = "createFile" then
      match rest with
      | [f] =>
        let r := create_file ts w.fs w.log f
        (r.1, ⟨r.2.1, r.2.2⟩)
      | _ => (-1, w)
    else if cmd = "listDir" then
      match rest with
      | [d] =>
        let r := list_directory ts w.fs w.log d
        (r.1, ⟨r.2.1, r.2.2⟩)
      | _ => (-1, w)
    else if cmd = "listFilesByExtension" then
      match rest with
      | [d, e] =>
        let r := list_files_by_extension ts w.fs w.log d e
        (r.1, ⟨r.2.1, r.2.2.1⟩)
      | _ => (-1, w)
    else if cmd = "readFile" then
      match rest with
      | [f] =>
        let r := read_file ts w.fs w.log f
        (r.1, ⟨r.2.1, r.2.2.1⟩)
      | _ => (-1, w)
    else if cmd = "appendToFile" then
      match rest with
      | [f, c] =>
        let r := append_to_file ts w.fs w.log f c
        (r.1, ⟨r.2.1, r.2.2⟩)
      | _ => (-1, w)
    else if cmd = "deleteFile" then
      match rest with
      | [f] =>
        let r := delete_file ts w.fs w.log f
        (r.1, ⟨r.2.1, r.2.2⟩)
      | _ => (-1, w)
    else if cmd = "deleteDir" then
      match rest with
      | [d] =>
        let r := delete_directory ts w.fs w.log d
        (r.1, ⟨r.2.1, r.2.2⟩)
      | _ => (-1, w)
    else if cmd = "showLogs" then
      let r := show_logs w.log
      (r.1, ⟨w.fs, r.2.1⟩)
    else if cmd = "exit" ∨ cmd = "quit" then (1, w)
    else if cmd = "help" then (0, w)
    else (-1, w)

/-- fileManager.c `MAX_ARGS`. -/
def MAX_ARGS : Nat := 4

/-- fileManager.c `MAX_ARG_SIZE`. -/
def MAX_ARG_SIZE : Nat := 256

/-- Epilogue of `parse_command` after the loop: `if (j > 0)` the current
token is NUL-terminated and counted — reading `args[arg_count]` is out of
range when `arg_count ≥ MAX_ARGS` and the NUL store is out of range when
`j ≥ MAX_ARG_SIZE`; with `j == 0` a dangling empty buffer is freed and
not counted. -/
def parse_finish (completed : List (List Char)) (cur : List Char) :
    Option (List (List Char)) :=
  if 0 < cur.length then
    if MAX_ARGS ≤ completed.length then none
    else if MAX_ARG_SIZE ≤ cur.length then none
    else some (completed ++ [cur])
  else some completed

/-- The loop of fileManager.c `parse_command` over the remaining input:
`completed` are the finished tokens (`arg_count = completed.length`),
`cur` the bytes collected into `args[arg_count]` (`j = cur.length`),
`inQuotes` the quote state. The loop stops at NUL or `'\n'`; a quote
toggles `inQuotes` and is discarded; an unquoted space with `j > 0`
NUL-terminates the token (out of range when `j ≥ MAX_ARG_SIZE`) and,
having counted `MAX_ARGS` tokens, `break`s — whereupon the epilogue runs
with `j > 0` still set and reads `args[MAX_ARGS]`, out of range; any other
byte is stored at `args[arg_count][j++]`, out of range when
`j ≥ MAX_ARG_SIZE`. `none` marks the out-of-range accesses. -/
def parse_go : List Char → List (List Char) → List Char → Bool →
    Option (List (List Char))
  | [], completed, cur, _ => parse_finish completed cur
  | c :: rest, completed, cur, inQuotes =>
    if c = '\n' then parse_finish completed cur
    else if c = '"' then parse_go rest completed cur (!inQuotes)
    else if c = ' ' ∧ inQuotes = false then
      if 0 < cur.length then
        if MAX_ARG_SIZE ≤ cur.length then none
        else if MAX_ARGS ≤ completed.length + 1 then none
        else parse_go rest (completed ++ [cur]) [] inQuotes
      else parse_go rest completed cur inQuotes
    else
      if MAX_ARG_SIZE ≤ cur.length then none
      else parse_go rest completed (cur ++ [c]) inQuotes

/-- fileManager.c `parse_command`: tokenize one input line. `some tokens`
when the parse completes inside the buffer bounds (the C function then
returns `tokens.length` with the tokens in `args`), `none` when the C code
indexes a buffer or the argument array out of range. -/
def parse_command (input : List Char) : Option (List (List Char)) :=
  parse_go input [] [] false

/-- A sample timestamp string, for concrete runs. -/
def ts0 : List Char := ("[2025-01-01 00:00:00]").data

/-- Modelled from the spec's words, for comparison with the two embedded
append variants: the separating newline the specification prescribes,
present exactly when the previous content is non-empty and does not
already end in a newline. -/
def spec_separator (old : List Char) : List Char :=
  if old ≠ [] ∧ old.getLast? ≠ some '\n' then ['\n'] else []

/-- A path at which `file_exists` is false holds no regular file. -/
theorem not_file_at (fs : FS) (f : String) (hex : file_exists fs f = false) :
    ∀ c, statF fs f ≠ some (FSEntry.file c) := by
  intro c hs
  unfold file_exists at hex
  rw [hs] at hex
  simp at hex

/-- A path at which `directory_exists` is false holds no directory. -/
theorem not_dir_at (fs : FS) (d : String)
    (hex : directory_exists fs d = false) :
    ∀ es, statF fs d ≠ some (FSEntry.dir es) := by
  intro es hs
  unfold directory_exists at hex
  rw [hs] at hex
  simp at hex

/-- Tokens coming out of the parser epilogue hold no double quote when the
finished tokens and the current buffer hold none. -/
theorem parse_finish_no_quote {completed : List (List Char)} {cur : List Char}
    {toks : List (List Char)} (h : parse_finish completed cur = some toks)
    (hc : ∀ t ∈ completed, '"' ∉ t) (hcur : '"' ∉ cur) :
    ∀ t ∈ toks, '"' ∉ t := by
  unfold parse_finish at h
  split_ifs at h with h1 h2 h3
  · obtain rfl := Option.some.inj h
    intro t ht
    rcases List.mem_append.mp ht with hx | hx
    · exact hc t hx
    · rw [List.mem_singleton] at hx
      subst hx
      exact hcur
  · obtain rfl := Option.some.inj h
    exact hc

/-- The parser loop never copies a double quote into a token: the quote
branch discards the character and every other stored character is not a
quote. -/
theorem parse_go_no_quote : ∀ (input : List Char)
    (completed : List (List Char)) (cur : List Char) (q : Bool)
    (toks : List (List Char)),
    parse_go input completed cur q = some toks →
    (∀ t ∈ completed, '"' ∉ t) → '"' ∉ cur → ∀ t ∈ toks, '"' ∉ t := by
  intro input
  induction input with
  | nil =>
    intro completed cur q toks h hc hcur
    exact parse_finish_no_quote h hc hcur
  | cons c rest ih =>
    intro completed cur q toks h hc hcur
    unfold parse_go at h
    split_ifs at h with h1 h2 h3 h4 h5 h6 h7
    · exact parse_finish_no_quote h hc hcur
    · exact ih _ _ _ _ h hc hcur
    · refine ih _ _ _ _ h ?_ ?_
      · intro t ht
        rcases List.mem_append.mp ht with hx | hx
        · exact hc t hx
        · rw [List.mem_singleton] at hx
          subst hx
          exact hcur
      · simp
    · exact ih _ _ _ _ h hc hcur
    · refine ih _ _ _ _ h hc ?_
      intro hx
      rcases List.mem_append.mp hx with hy | hy
      · exact hcur hy
      · rw [List.mem_singleton] at hy
        exact h2 hy.symm

/-- C4. The parser respects double-quoted substrings: the line
`createFile "my file.txt"` parses to exactly two tokens, the second being
`my file.txt` with its interior space preserved and the quote characters
stripped; and in general a successful parse copies no double quote into
any token (each quote only toggles the quoted state and is discarded). -/
theorem c4_parser_quoting :
    parse_command (("createFile \"my file.txt\"").data) =
      some [("createFile").data, ("my file.txt").data]
    ∧ ∀ input toks, parse_command input = some toks → ∀ t ∈ toks, '"' ∉ t := by
  refine ⟨rfl, ?_⟩
  intro input toks h
  exact parse_go_no_quote input [] [] false toks h (by simp) (by simp)

/-- C5. On input holding material past the fourth token, `parse_command`
does not stop cleanly at the bound: the loop `break`s with `j > 0` still
set, so the epilogue reads `args[MAX_ARGS]`, past the four-pointer array
(the embedding marks the out-of-range access with `none`, where the claim
expects a successful 4-token result); a line of exactly four tokens with
no trailing material still parses cleanly. -/
theorem c5_fifth_token_out_of_bounds :
    parse_command (("a b c d e").data) = none
    ∧ parse_command (("a b c d").data) =
        some [("a").data, ("b").data, ("c").data, ("d").data] :=
  ⟨rfl, rfl⟩

set_option maxRecDepth 4000 in
/-- C9. The character store of `parse_command` is not bounds-checked
against `MAX_ARG_SIZE`: an unquoted token of 256 characters drives the
store (or the terminating NUL) to index 256 of the 256-byte argument
buffer — the embedding's out-of-range branch (`none`) is reached — while a
255-character token still fits. -/
theorem c9_token_buffer_overflow :
    parse_command (List.replicate 256 'a') = none
    ∧ parse_command (List.replicate 255 'a') =
        some [List.replicate 255 'a'] := by
  constructor
  · rfl
  · decide

/-- C10. `file_exists` accepts exactly the paths holding a regular file
(`stat` succeeding and `S_ISREG`), so `read_file`, `append_to_file` (both
variants) and `delete_file` on a path holding a directory take the
"not found" branch: failure result, filesystem and log unchanged; the
concrete check evaluates `file_exists` on a directory. -/
theorem c10_file_exists_regular_only :
    (∀ fs p, file_exists fs p = true ↔
      ∃ c, statF fs p = some (FSEntry.file c))
    ∧ (∀ ts fs log p c entries,
        statF fs p = some (FSEntry.dir entries) →
        file_exists fs p = false
        ∧ read_file ts fs log p = (-1, fs, log, [])
        ∧ append_to_file ts fs log p c = (-1, fs, log)
        ∧ append_to_file_child ts fs log p c = (-1, fs, log)
        ∧ delete_file ts fs log p = (-1, fs, log))
    ∧ file_exists [("d", FSEntry.dir [])] "d" = false := by
  refine ⟨?_, ?_, rfl⟩
  · intro fs p
    unfold file_exists
    cases hs : statF fs p with
    | none => simp
    | some e =>
      cases e with
      | file c => simp
      | dir es => simp
  · intro ts fs log p c entries h
    exact ⟨by simp [file_exists, h], by simp [read_file, h],
      by simp [append_to_file, h], by simp [append_to_file_child, h],
      by simp [delete_file, h]⟩

/-- C3. Every existence-precondition violation is a pure failure:
`create_file` on an existing file, `read_file`, `append_to_file` (both
variants) and `delete_file` on a missing file, `create_directory` on an
existing directory, `delete_directory` on a missing directory and on a
non-empty one — each returns `-1` and leaves the filesystem and the log
exactly as they were. -/
theorem c3_precondition_violation_no_effect :
    (∀ ts fs log f, file_exists fs f = true →
      create_file ts fs log f = (-1, fs, log))
    ∧ (∀ ts fs log f, file_exists fs f = false →
      read_file ts fs log f = (-1, fs, log, []))
    ∧ (∀ ts fs log f c, file_exists fs f = false →
      append_to_file ts fs log f c = (-1, fs, log))
    ∧ (∀ ts fs log f c, file_exists fs f = false →
      append_to_file_child ts fs log f c = (-1, fs, log))
    ∧ (∀ ts fs log f, file_exists fs f = false →
      delete_file ts fs log f = (-1, fs, log))
    ∧ (∀ ts fs log d, directory_exists fs d = true →
      create_directory ts fs log d = (-1, fs, log))
    ∧ (∀ ts fs log d, directory_exists fs d = false →
      delete_directory ts fs log d = (-1, fs, log))
    ∧ (∀ ts fs log d entries,
        statF fs d = some (FSEntry.dir entries) →
        entries.all (fun e => e.1 == "." || e.1 == "..") = false →
        delete_directory ts fs log d = (-1, fs, log)) := by
  refine ⟨?_, ?_, ?_, ?_, ?_, ?_, ?_, ?_⟩
  · intro ts fs log f hex
    simp [create_file, hex]
  · intro ts fs log f hex
    cases hs : statF fs f with
    | none => simp [read_file, hs]
    | some e =>
      cases e with
      | file c => exact absurd hs (not_file_at fs f hex c)
      | dir es => simp [read_file, hs]
  · intro ts fs log f c hex
    cases hs : statF fs f with
    | none => simp [append_to_file, hs]
    | some e =>
      cases e with
      | file c2 => exact absurd hs (not_file_at fs f hex c2)
      | dir es => simp [append_to_file, hs]
  · intro ts fs log f c hex
    cases hs : statF fs f with
    | none => simp [append_to_file_child, hs]
    | some e =>
      cases e with
      | file c2 => exact absurd hs (not_file_at fs f hex c2)
      | dir es => simp [append_to_file_child, hs]
  · intro ts fs log f hex
    cases hs : statF fs f with
    | none => simp [delete_file, hs]
    | some e =>
      cases e with
      | file c => exact absurd hs (not_file_at fs f hex c)
      | dir es => simp [delete_file, hs]
  · intro ts fs log d hex
    simp [create_directory, hex]
  · intro ts fs log d hex
    cases hs : statF fs d with
    | none => simp [delete_directory, hs]
    | some e =>
      cases e with
      | file c => simp [delete_directory, hs]
      | dir es => exact absurd hs (not_dir_at fs d hex es)
  · intro ts fs log d entries h hall
    simp [delete_directory, h, hall]

/-- Successful `create_file` appends exactly its template entry to the log. -/
theorem create_file_success_log (ts : List Char) (fs : FS)
    (log : Option (List Char)) (f : String)
    (h : (create_file ts fs log f).1 = 0) :
    (create_file ts fs log f).2.2 =
      log_operation ts (string_format 256 (create_file_msg f)) log := by
  by_cases h1 : file_exists fs f
  · simp [create_file, h1] at h
  · by_cases h2 : (statF fs f).isSome
    · simp [create_file, h1, h2] at h
    · simp [create_file, h1, h2]

/-- Successful `read_file` appends exactly its template entry to the log. -/
theorem read_file_success_log (ts : List Char) (fs : FS)
    (log : Option (List Char)) (f : String)
    (h : (read_file ts fs log f).1 = 0) :
    (read_file ts fs log f).2.2.1 =
      log_operation ts (string_format 256 (read_file_msg f)) log := by
  cases hs : statF fs f with
  | none => simp [read_file, hs] at h
  | some e =>
    cases e with
    | file c => simp [read_file, hs]
    | dir es => simp [read_file, hs] at h

/-- Successful `append_to_file` appends exactly its template entry. -/
theorem append_success_log (ts : List Char) (fs : FS)
    (log : Option (List Char)) (f c : String)
    (h : (append_to_file ts fs log f c).1 = 0) :
    (append_to_file ts fs log f c).2.2 =
      log_operation ts (string_format 256 (append_msg f)) log := by
  cases hs : statF fs f with
  | none => simp [append_to_file, hs] at h
  | some e =>
    cases e with
    | file old => simp [append_to_file, hs]
    | dir es => simp [append_to_file, hs] at h

/-- Successful child-variant append appends exactly its template entry. -/
theorem append_child_success_log (ts : List Char) (fs : FS)
    (log : Option (List Char)) (f c : String)
    (h : (append_to_file_child ts fs log f c).1 = 0) :
    (append_to_file_child ts fs log f c).2.2 =
      log_operation ts (string_format 256 (append_child_msg f)) log := by
  cases hs : statF fs f with
  | none => simp [append_to_file_child, hs] at h
  | some e =>
    cases e with
    | file old => simp [append_to_file_child, hs]
    | dir es => simp [append_to_file_child, hs] at h

/-- Successful `delete_file` appends exactly its template entry. -/
theorem delete_file_success_log (ts : List Char) (fs : FS)
    (log : Option (List Char)) (f : String)
    (h : (delete_file ts fs log f).1 = 0) :
    (delete_file ts fs log f).2.2 =
      log_operation ts (string_format 256 (delete_file_msg f)) log := by
  cases hs : statF fs f with
  | none => simp [delete_file, hs] at h
  | some e =>
    cases e with
    | file c => simp [delete_file, hs]
    | dir es => simp [delete_file, hs] at h

/-- Successful `create_directory` appends exactly its template entry. -/
theorem create_directory_success_log (ts : List Char) (fs : FS)
    (log : Option (List Char)) (d : String)
    (h : (create_directory ts fs log d).1 = 0) :
    (create_directory ts fs log d).2.2 =
      log_operation ts (string_format 256 (create_dir_msg d)) log := by
  by_cases h1 : directory_exists fs d
  · simp [create_directory, h1] at h
  · by_cases h2 : (statF fs d).isSome
    · simp [create_directory, h1, h2] at h
    · simp [create_directory, h1, h2]

/-- Successful `list_directory` appends exactly its template entry. -/
theorem list_directory_success_log (ts : List Char) (fs : FS)
    (log : Option (List Char)) (d : String)
    (h : (list_directory ts fs log d).1 = 0) :
    (list_directory ts fs log d).2.2 =
      log_operation ts (string_format 256 (list_dir_msg d)) log := by
  cases hs : statF fs d with
  | none => simp [list_directory, hs] at h
  | some e =>
    cases e with
    | file c => simp [list_directory, hs] at h
    | dir es => simp [list_directory, hs]

/-- Successful `list_files_by_extension` appends exactly its template
entry. -/
theorem list_ext_success_log (ts : List Char) (fs : FS)
    (log : Option (List Char)) (d e : String)
    (h : (list_files_by_extension ts fs log d e).1 = 0) :
    (list_files_by_extension ts fs log d e).2.2.1 =
      log_operation ts (string_format 256 (list_ext_msg e d)) log := by
  cases hs : statF fs d with
  | none => simp [list_files_by_extension, hs] at h
  | some en =>
    cases en with
    | file c => simp [list_files_by_extension, hs] at h
    | dir es => simp [list_files_by_extension, hs]

/-- Successful `delete_directory` appends exactly its template entry. -/
theorem delete_directory_success_log (ts : List Char) (fs : FS)
    (log : Option (List Char)) (d : String)
    (h : (delete_directory ts fs log d).1 = 0) :
    (delete_directory ts fs log d).2.2 =
      log_operation ts (string_format 256 (delete_dir_msg d)) log := by
  cases hs : statF fs d with
  | none => simp [delete_directory, hs] at h
  | some e =>
    cases e with
    | file c => simp [delete_directory, hs] at h
    | dir es =>
      by_cases he : es.all (fun e => e.1 == "." || e.1 == "..")
      · simp [delete_directory, hs, he]
      · simp [delete_directory, hs, he] at h

/-- `show_logs` only reads the log. -/
theorem show_logs_log_id (log : Option (List Char)) :
    (show_logs log).2.1 = log := by
  cases log with
  | none => rfl
  | some c =>
    by_cases h : c.length = 0
    · simp [show_logs, h]
    · simp [show_logs, h]

/-- `show_logs` always reports success. -/
theorem show_logs_ret (log : Option (List Char)) : (show_logs log).1 = 0 := by
  cases log with
  | none => rfl
  | some c =>
    by_cases h : c.length = 0
    · simp [show_logs, h]
    · simp [show_logs, h]

/-- C2. Amended: each successful filesystem operation appends exactly one
log entry — the `log_operation` of its documented template (as formatted
into the C buffers) — while the dispatcher's `showLogs`, `help` and
`exit`/`quit` commands succeed without appending any entry, contrary to
the claim's "including showLogs and help". -/
theorem c2_success_logging :
    (∀ ts msg l, log_operation ts msg (some l) =
      some (l ++ string_format 512 (ts ++ ' ' :: (msg ++ ['\n']))))
    ∧ (∀ ts fs log f, (create_file ts fs log f).1 = 0 →
      (create_file ts fs log f).2.2 =
        log_operation ts (string_format 256 (create_file_msg f)) log)
    ∧ (∀ ts fs log f, (read_file ts fs log f).1 = 0 →
      (read_file ts fs log f).2.2.1 =
        log_operation ts (string_format 256 (read_file_msg f)) log)
    ∧ (∀ ts fs log f c, (append_to_file ts fs log f c).1 = 0 →
      (append_to_file ts fs log f c).2.2 =
        log_operation ts (string_format 256 (append_msg f)) log)
    ∧ (∀ ts fs log f c, (append_to_file_child ts fs log f c).1 = 0 →
      (append_to_file_child ts fs log f c).2.2 =
        log_operation ts (string_format 256 (append_child_msg f)) log)
    ∧ (∀ ts fs log f, (delete_file ts fs log f).1 = 0 →
      (delete_file ts fs log f).2.2 =
        log_operation ts (string_format 256 (delete_file_msg f)) log)
    ∧ (∀ ts fs log d, (create_directory ts fs log d).1 = 0 →
      (create_directory ts fs log d).2.2 =
        log_operation ts (string_format 256 (create_dir_msg d)) log)
    ∧ (∀ ts fs log d, (list_directory ts fs log d).1 = 0 →
      (list_directory ts fs log d).2.2 =
        log_operation ts (string_format 256 (list_dir_msg d)) log)
    ∧ (∀ ts fs log d e, (list_files_by_extension ts fs log d e).1 = 0 →
      (list_files_by_extension ts fs log d e).2.2.1 =
        log_operation ts (string_format 256 (list_ext_msg e d)) log)
    ∧ (∀ ts fs log d, (delete_directory ts fs log d).1 = 0 →
      (delete_directory ts fs log d).2.2 =
        log_operation ts (string_format 256 (delete_dir_msg d)) log)
    ∧ (∀ ts w, execute_command ts w ["help"] = (0, w))
    ∧ (∀ ts w, (execute_command ts w ["showLogs"]).1 = 0
        ∧ (execute_command ts w ["showLogs"]).2 = w)
    ∧ (∀ ts w, execute_command ts w ["exit"] = (1, w)
        ∧ execute_command ts w ["quit"] = (1, w)) := by
  refine ⟨fun ts msg l => rfl, create_file_success_log, read_file_success_log,
    append_success_log, append_child_success_log, delete_file_success_log,
    create_directory_success_log, list_directory_success_log,
    list_ext_success_log, delete_directory_success_log,
    fun ts w => rfl, fun ts w => ⟨?_, ?_⟩, fun ts w => ⟨rfl, rfl⟩⟩
  · show (show_logs w.log).1 = 0
    exact show_logs_ret w.log
  · show (⟨w.fs, (show_logs w.log).2.1⟩ : World) = w
    rw [show_logs_log_id]

/-- C2 fails as stated: a successful run of the `help` command appends no
log entry at all — the log is exactly what it was, while appending any
entry would have changed it. -/
theorem c2_counterexample :
    (execute_command ts0 ⟨[], some []⟩ ["help"]).1 = 0
    ∧ (execute_command ts0 ⟨[], some []⟩ ["help"]).2.log = some []
    ∧ ∀ ts msg, log_operation ts msg (some []) ≠ some [] := by
  refine ⟨rfl, rfl, ?_⟩
  intro ts msg h
  simp [log_operation, string_format, List.take_eq_nil_iff] at h

/-- On non-empty content not ending in a newline, the child-variant append
inserts exactly one separating newline before the new content. -/
theorem append_child_effect_of_ne (old c : List Char) (hne : old ≠ [])
    (hnl : old.getLast? ≠ some '\n') :
    append_child_effect old c = old ++ '\n' :: c := by
  unfold append_child_effect
  rw [if_pos ⟨List.length_pos.mpr hne, hnl⟩]
  simp

/-- C1. Amended: the child-process append variant satisfies the claim's
iff-invariant — the resulting content is the previous content, then
`spec_separator` (one newline exactly when the previous content is
non-empty and not newline-terminated), then the new content — while the
fileops.c variant writes the separating newline unconditionally; on a
pre-existing file whose content is non-empty and does not end in a
newline (such as a `create_file`-seeded file), three sequential appends
of "X" produce "X" three times, each preceded by exactly one newline,
under both variants. -/
theorem c1_append_separator_policy :
    (∀ ts fs log f content old,
      statF fs f = some (FSEntry.file old) →
      append_to_file_child ts fs log f content =
        (0, fsUpdate fs f (old ++ spec_separator old ++ content.data),
          log_operation ts (string_format 256 (append_child_msg f)) log))
    ∧ (∀ ts fs log f content old,
      statF fs f = some (FSEntry.file old) →
      append_to_file ts fs log f content =
        (0, fsUpdate fs f (old ++ '\n' :: content.data),
          log_operation ts (string_format 256 (append_msg f)) log))
    ∧ (∀ old : List Char, old ≠ [] → old.getLast? ≠ some '\n' →
      append_effect (append_effect (append_effect old ['X']) ['X']) ['X']
        = old ++ ('\n' :: 'X' :: '\n' :: 'X' :: '\n' :: 'X' :: [])
      ∧ append_child_effect
          (append_child_effect (append_child_effect old ['X']) ['X']) ['X']
        = old ++ ('\n' :: 'X' :: '\n' :: 'X' :: '\n' :: 'X' :: [])) := by
  refine ⟨?_, ?_, ?_⟩
  · intro ts fs log f content old h
    have hcong : (0 < old.length ∧ old.getLast? ≠ some '\n') ↔
        (old ≠ [] ∧ old.getLast? ≠ some '\n') :=
      and_congr_left fun _ => List.length_pos
    by_cases hc : old ≠ [] ∧ old.getLast? ≠ some '\n'
    · simp only [append_to_file_child, h, append_child_effect, spec_separator,
        if_pos hc, if_pos (hcong.mpr hc), List.append_assoc]
    · simp only [append_to_file_child, h, append_child_effect, spec_separator,
        if_neg hc, if_neg (fun hx => hc (hcong.mp hx)), List.append_nil]
  · intro ts fs log f content old h
    simp [append_to_file, h, append_effect]
  · intro old hne hnl
    constructor
    · simp [append_effect]
    · have k1 := append_child_effect_of_ne old ['X'] hne hnl
      have e2 : (old ++ '\n' :: ['X']).getLast? = some 'X' := by
        rw [(by simp : old ++ '\n' :: ['X'] = (old ++ ['\n']) ++ ['X'])]
        exact List.getLast?_concat _
      have k2 := append_child_effect_of_ne (old ++ '\n' :: ['X']) ['X']
        (by simp) (by rw [e2]; decide)
      have e4 : ((old ++ '\n' :: ['X']) ++ '\n' :: ['X']).getLast?
          = some 'X' := by
        rw [(by simp : (old ++ '\n' :: ['X']) ++ '\n' :: ['X']
          = ((old ++ '\n' :: ['X']) ++ ['\n']) ++ ['X'])]
        exact List.getLast?_concat _
      have k3 := append_child_effect_of_ne
        ((old ++ '\n' :: ['X']) ++ '\n' :: ['X']) ['X']
        (by simp) (by rw [e4]; decide)
      rw [k1, k2, k3]
      simp

/-- C1 fails on the fileops.c variant at a concrete input: appending "X"
to a file whose content "a\n" already ends in a newline still inserts a
separating newline, where the claim's iff prescribes none. -/
theorem c1_counterexample :
    (append_to_file ts0 [("a.txt", FSEntry.file (("a\n").data))] (some [])
        "a.txt" "X").2.1
      ≠ [("a.txt", FSEntry.file ((("a\n").data) ++
          spec_separator (("a\n").data) ++ ("X").data))] := by
  decide

/-- C6. Round-trip: on a path holding no entry, `create_file` succeeds and
seeds the new file with exactly the timestamp string, and an immediate
`read_file` of the same path succeeds returning exactly that timestamp
and nothing else; demonstrated concretely with the sample timestamp. -/
theorem c6_create_read_roundtrip :
    (∀ ts fs log f, statF fs f = none →
      (create_file ts fs log f).1 = 0
      ∧ read_file ts (create_file ts fs log f).2.1
          (create_file ts fs log f).2.2 f
        = (0, (create_file ts fs log f).2.1,
            log_operation ts (string_format 256 (read_file_msg f))
              (create_file ts fs log f).2.2,
            ts))
    ∧ (read_file ts0 (create_file ts0 [] (some []) "a.txt").2.1
        (create_file ts0 [] (some []) "a.txt").2.2 "a.txt").2.2.2 = ts0 := by
  constructor
  · intro ts fs log f hs
    have hfe : file_exists fs f = false := by simp [file_exists, hs]
    have hcf : create_file ts fs log f =
        (0, (f, FSEntry.file ts) :: fs,
          log_operation ts (string_format 256 (create_file_msg f)) log) := by
      simp [create_file, hfe, hs]
    rw [hcf]
    exact ⟨rfl, by simp [read_file, statF]⟩
  · rfl

/-- C7. `show_logs` case split: missing log file → "No logs available."
and success; existing empty log → "Log file is empty." and success;
otherwise the header, the entire log content, and one trailing newline
exactly when the content does not already end in one — and in every case
the log file itself is left unchanged. -/
theorem c7_show_logs_cases :
    show_logs none = (0, none, ("No logs available.\n").data)
    ∧ show_logs (some []) = (0, some [], ("Log file is empty.\n").data)
    ∧ (∀ content : List Char, content ≠ [] →
        show_logs (some content) = (0, some content,
          ("Operation Logs:\n").data ++ content ++
            (if content.getLast? = some '\n' then [] else ['\n'])))
    ∧ (∀ log, (show_logs log).2.1 = log) := by
  refine ⟨rfl, rfl, ?_, show_logs_log_id⟩
  intro content hne
  have hl : ¬ content.length = 0 := by simpa using hne
  simp only [show_logs, if_neg hl]
  by_cases hlast : content.getLast? = some '\n'
  · simp [hlast]
  · simp [hlast, Nat.pos_of_ne_zero hl]

/-- String suffix comparison through `drop`, mirroring the C pointer
arithmetic `d_name + name_len - ext_len`. -/
theorem string_drop_eq_iff_suffix (name ext : String) :
    (name.data.drop (name.length - ext.length) = ext.data) ↔
      List.IsSuffix ext.data name.data := by
  have h1 : name.length = name.data.length := rfl
  have h2 : ext.length = ext.data.length := rfl
  rw [h1, h2, List.suffix_iff_eq_drop]
  exact ⟨fun h => h.symm, fun h => h.symm⟩

/-- The Boolean entry filter of `list_files_by_extension`, as a
proposition: not the self/parent references, a regular file, and the name
strictly longer than the extension and ending with it. -/
theorem lfbe_keep_iff (ext : String) (e : String × DKind) :
    lfbe_keep ext e = true ↔
      ¬e.1 = "." ∧ ¬e.1 = ".." ∧ e.2 = DKind.regular ∧
        ext.length < e.1.length ∧ List.IsSuffix ext.data e.1.data := by
  simp only [lfbe_keep, ext_matches, Bool.and_eq_true, Bool.not_eq_true',
    beq_eq_false_iff_ne, ne_eq, decide_eq_true_eq, string_drop_eq_iff_suffix]
  tauto

/-- C8. Amended: `list_files_by_extension` lists exactly the directory
entries (other than "." and "..") that are regular files and whose name is
strictly longer than the supplied suffix and ends with it, byte-exact and
case-sensitive — a regular file whose name equals the extension is
excluded by the strict length test, contrary to the claim's plain
"ends with the supplied suffix". -/
theorem c8_extension_filter :
    (∀ ts fs log d ext entries,
      statF fs d = some (FSEntry.dir entries) →
      (list_files_by_extension ts fs log d ext).2.2.2 =
        listed_by_extension entries ext)
    ∧ (∀ (entries : List (String × DKind)) (ext name : String)
        (kind : DKind),
        ((name, kind) ∈ entries.filter (lfbe_keep ext) ↔
          (name, kind) ∈ entries ∧ ¬name = "." ∧ ¬name = ".." ∧
            kind = DKind.regular ∧ ext.length < name.length ∧
            List.IsSuffix ext.data name.data))
    ∧ listed_by_extension
        [(".txt", DKind.regular), ("a.txt", DKind.regular),
         ("c.txt", DKind.directory), ("b.md", DKind.regular)] ".txt"
      = ["a.txt"] := by
  refine ⟨?_, ?_, rfl⟩
  · intro ts fs log d ext entries h
    simp [list_files_by_extension, h]
  · intro entries ext name kind
    rw [List.mem_filter, lfbe_keep_iff]

/-- C8 fails as stated at a concrete input: a regular file named exactly
".txt" ends with the supplied suffix ".txt" yet is not listed, because
the code requires `name_len > ext_len` strictly. -/
theorem c8_counterexample :
    (list_files_by_extension ts0
        [("d", FSEntry.dir [(".txt", DKind.regular)])] (some [])
        "d" ".txt").2.2.2 = []
    ∧ List.IsSuffix ((".txt").data) ((".txt").data) :=
  ⟨rfl, ⟨[], rfl⟩⟩

end FileManager
